import Mathlib

/-!
# Distributed compute core: shallow embedding

A shallow embedding of the distributed-compute subsystem of the repository
(compute node, task scheduler, inter-node communication) together with
proofs and refutations of the specification's claims about it.

The embedding mirrors the TypeScript source:
* JS `Map` objects are modelled as insertion-ordered association lists
  (`Map.set` on an existing key updates in place, on a new key appends;
  `Map.delete` removes; `Map.size` is the list length).
* JS arrays that are shared by reference (the node's `capabilities` array)
  are modelled through an explicit heap of arrays indexed by `Nat`
  references; an object field holding an array holds the reference.
* JS numbers used as integers (ports, priorities, timestamps, config
  values) are modelled as `Int`; the node `load`, a quotient of small
  integers, is modelled exactly as `Rat`.
* `async` methods are split at their `await` points: the synchronous
  prefix is a state transformer, and the settlement of an awaited
  execution (success, handler failure, or timeout loss) is a separate
  state transformer invoked by the event loop.
-/

namespace DistCore

/-- Lookup in a JS-`Map`-like association list (first binding of the key). -/
def alGet {α : Type} (l : List (String × α)) (k : String) : Option α :=
  match l with
  | [] => none
  | (k0, v) :: rest => if k0 = k then some v else alGet rest k

/-- JS `Map.set`: update the first binding in place, or append a new one. -/
def alSet {α : Type} (l : List (String × α)) (k : String) (v : α) :
    List (String × α) :=
  match l with
  | [] => [(k, v)]
  | (k0, v0) :: rest =>
    if k0 = k then (k, v) :: rest else (k0, v0) :: alSet rest k v

/-- JS `Map.delete`: remove the binding of the key, if present. -/
def alDel {α : Type} (l : List (String × α)) (k : String) :
    List (String × α) :=
  match l with
  | [] => []
  | (k0, v0) :: rest =>
    if k0 = k then rest else (k0, v0) :: alDel rest k

/-- The keys of a JS-`Map`-like association list, in insertion order. -/
def alKeys {α : Type} (l : List (String × α)) : List String :=
  l.map (fun p => p.1)

/-- A heap of string arrays: JS arrays are mutable objects shared by
reference, so an object field that holds an array holds a `Nat` reference
into this heap. -/
structure Heap where
  arrays : List (List String)
deriving Repr, DecidableEq

/-- Dereference an array reference (out-of-range reads give `[]`; the
embedding only ever dereferences allocated references). -/
def Heap.get (h : Heap) (r : Nat) : List String :=
  h.arrays.getD r []

/-- Overwrite the array stored at a reference. -/
def Heap.set (h : Heap) (r : Nat) (a : List String) : Heap :=
  ⟨h.arrays.set r a⟩

/-- Allocate a fresh array, returning the heap and the new reference. -/
def Heap.alloc (h : Heap) (a : List String) : Heap × Nat :=
  (⟨h.arrays ++ [a]⟩, h.arrays.length)

/-- JS `array.push(x)` through a reference. -/
def Heap.push (h : Heap) (r : Nat) (x : String) : Heap :=
  h.set r (h.get r ++ [x])

/-- The `NodeInfo.status` from `compute-node.ts`. -/
inductive NodeStatus where
  | idle
  | busy
  | offline
deriving Repr, DecidableEq

/-- The `NodeInfo` object of `compute-node.ts`. The `capabilities` field
holds a reference to an array in the heap, exactly as the JS object holds
an array reference; copying the object (`{ ...info }`) copies the
reference, not the array. -/
structure NodeInfo where
  id : String
  address : String
  port : Int
  status : NodeStatus
  capabilities : Nat
  load : Rat
deriving Repr, DecidableEq

/-- The `Task` interface of `compute-node.ts`. The opaque `payload : any`
is modelled as a `String`. -/
structure Task where
  id : String
  type : String
  payload : String
  priority : Int
  createdAt : Int
  assignedTo : Option String := none
deriving Repr, DecidableEq

/-- The private state of a `ComputeNode`: its `info` object, its
`tasks : Map<string, Task>` and the `maxConcurrentTasks` bound. -/
structure ComputeNode where
  info : NodeInfo
  tasks : List (String × Task)
  maxConcurrentTasks : Nat
deriving Repr, DecidableEq

namespace ComputeNode

/-- The `ComputeNode` constructor. The caller's capabilities array is
stored by reference (`capsRef`), as in JS where the constructor keeps the
array object it was handed. `maxConcurrentTasks` is hard-coded to 4. -/
def construct (id address : String) (port : Int) (capsRef : Nat) :
    ComputeNode :=
  { info :=
      { id := id
        address := address
        port := port
        status := NodeStatus.idle
        capabilities := capsRef
        load := 0 }
    tasks := []
    maxConcurrentTasks := 4 }

/-- The `getInfo()`: `return { ...this.info }` — a shallow copy of the info
object. In the embedding the returned value is the record value itself:
its scalar fields are copied and its `capabilities` field still holds the
same array reference. -/
def getInfo (n : ComputeNode) : NodeInfo :=
  n.info

/-- The `setStatus(status)`. -/
def setStatus (n : ComputeNode) (st : NodeStatus) : ComputeNode :=
  { n with info := { n.info with status := st } }

/-- The `canAcceptTask()`: status is not offline and the task count is below
the concurrency ceiling. -/
def canAcceptTask (n : ComputeNode) : Bool :=
  n.info.status ≠ NodeStatus.offline ∧ n.tasks.length < n.maxConcurrentTasks

/-- The `updateLoad()`: `load = tasks.size / maxConcurrentTasks` (exact in
JS doubles for sizes up to 4, so `Rat` models it exactly). -/
def updateLoad (n : ComputeNode) : ComputeNode :=
  { n with info :=
      { n.info with load := (n.tasks.length : Rat) / (n.maxConcurrentTasks : Rat) } }

/-- The `assignTask(task)`: reject if `canAcceptTask()` is false; otherwise
set `task.assignedTo`, store the task, recompute the load and mark the
node busy when it holds at least one task. -/
def assignTask (n : ComputeNode) (task : Task) : ComputeNode × Bool :=
  if ¬ n.canAcceptTask then (n, false)
  else
    let task' := { task with assignedTo := some n.info.id }
    let n := { n with tasks := alSet n.tasks task'.id task' }
    let n := n.updateLoad
    let n :=
      if 0 < n.tasks.length then
        { n with info := { n.info with status := NodeStatus.busy } }
      else n
    (n, true)

/-- The `processTask(task)`: the task-type switch. Every branch of the source
switch resolves (the simulated handlers only await a delay), so the source
handler always succeeds with a value. -/
def processTask (task : Task) : Except String String :=
  match task.type with
  | "inference" => Except.ok ("inference:" ++ task.payload)
  | "training" => Except.ok ("training:" ++ task.payload)
  | "data_processing" => Except.ok ("data_processing:" ++ task.payload)
  | _ => Except.ok ("success:" ++ task.id)

/-- The `executeTask(taskId)`, parametrised by the settlement of the awaited
handler so that the `try`/`catch` skeleton is stated once for any handler
outcome (§9 of the spec makes task processing an extensible type-keyed
handler map, so a handler may reject even though the built-in ones do
not). Absent task: throw TaskNotFound. Handler success: delete the task,
recompute load, restore idle when no tasks remain, return the result.
Handler failure (`catch`): delete the task, recompute load, rethrow —
the source `catch` block does not touch the status. -/
def executeTaskWith (n : ComputeNode) (taskId : String)
    (handlerOutcome : Except String String) :
    ComputeNode × Except String String :=
  match alGet n.tasks taskId with
  | none => (n, Except.error ("Task " ++ taskId ++ " not found"))
  | some _ =>
    match handlerOutcome with
    | Except.ok r =>
      let n := { n with tasks := alDel n.tasks taskId }
      let n := n.updateLoad
      let n :=
        if n.tasks.length = 0 then
          { n with info := { n.info with status := NodeStatus.idle } }
        else n
      (n, Except.ok r)
    | Except.error e =>
      let n := { n with tasks := alDel n.tasks taskId }
      let n := n.updateLoad
      (n, Except.error e)

/-- The `executeTask(taskId)` as the source runs it: the handler outcome is
the one `processTask` produces for the stored task. -/
def executeTask (n : ComputeNode) (taskId : String) :
    ComputeNode × Except String String :=
  match alGet n.tasks taskId with
  | none => (n, Except.error ("Task " ++ taskId ++ " not found"))
  | some task => n.executeTaskWith taskId (processTask task)

/-- The `getTaskCount()`. -/
def getTaskCount (n : ComputeNode) : Nat :=
  n.tasks.length

/-- The `getLoad()`. -/
def getLoad (n : ComputeNode) : Rat :=
  n.info.load

/-- The `hasCapability(c)`: membership in the capabilities array, read through
the node's array reference. -/
def hasCapability (h : Heap) (n : ComputeNode) (c : String) : Bool :=
  (h.get n.info.capabilities).contains c

/-- The `addCapability(c)`: push onto the shared capabilities array unless
already present. Mutates only the heap — the node record itself is
unchanged, which is exactly the JS situation. -/
def addCapability (h : Heap) (n : ComputeNode) (c : String) : Heap :=
  if n.hasCapability h c then h else h.push n.info.capabilities c

/-- The `removeCapability(c)`: splice the first occurrence out of the shared
capabilities array. -/
def removeCapability (h : Heap) (n : ComputeNode) (c : String) : Heap :=
  h.set n.info.capabilities ((h.get n.info.capabilities).erase c)

end ComputeNode

/-- The `createComputeNode(id, address = 'localhost', port = 8080,
capabilities = [])`: passes its arguments straight to the constructor. -/
def createComputeNode (id : String) (address : String := "localhost")
    (port : Int := 8080) (capsRef : Nat := 0) : ComputeNode :=
  ComputeNode.construct id address port capsRef

/-! ## Task scheduler (`task-scheduler.ts`) -/

/-- The `SchedulingStrategy`. -/
inductive SchedulingStrategy where
  | roundRobin
  | leastLoaded
  | random
  | capabilityBased
deriving Repr, DecidableEq

/-- The `SchedulerConfig` after the constructor has filled in defaults. -/
structure SchedulerConfig where
  strategy : SchedulingStrategy
  maxRetries : Int
  timeout : Int
deriving Repr, DecidableEq

/-- The `Partial<SchedulerConfig>`: every field may be absent. -/
structure PartialSchedulerConfig where
  strategy : Option SchedulingStrategy := none
  maxRetries : Option Int := none
  timeout : Option Int := none
deriving Repr, DecidableEq

/-- JS `config.x || default` for a numeric field: an absent field and a
field equal to `0` (falsy) both fall back to the default. (Negative
numbers are truthy and are kept.) -/
def orDefaultNum (v : Option Int) (d : Int) : Int :=
  match v with
  | none => d
  | some x => if x = 0 then d else x

/-- An entry of the scheduler's `taskResults` map: either the value the
winning execution produced, or the terminal
`{ error: 'Max retries exceeded' }` record. -/
inductive TaskOutcome where
  | success (value : String)
  | maxRetriesExceeded
deriving Repr, DecidableEq

/-- The private state of a `TaskScheduler`: node registry, pending queue,
resolved config, round-robin cursor and result table. -/
structure TaskScheduler where
  nodes : List (String × ComputeNode)
  taskQueue : List Task
  config : SchedulerConfig
  nextNodeIndex : Nat
  taskResults : List (String × TaskOutcome)
deriving Repr, DecidableEq

namespace TaskScheduler

/-- The `TaskScheduler` constructor: empty registry, empty queue, config
defaults (`strategy` defaults to least-loaded, `maxRetries` to 3,
`timeout` to 30000, each via `||`), cursor 0, empty result table. -/
def construct (config : PartialSchedulerConfig := {}) : TaskScheduler :=
  { nodes := []
    taskQueue := []
    config :=
      { strategy := config.strategy.getD SchedulingStrategy.leastLoaded
        maxRetries := orDefaultNum config.maxRetries 3
        timeout := orDefaultNum config.timeout 30000 }
    nextNodeIndex := 0
    taskResults := [] }

/-- The `registerNode(node)`: keyed by the id read off `node.getInfo()`. -/
def registerNode (s : TaskScheduler) (node : ComputeNode) : TaskScheduler :=
  { s with nodes := alSet s.nodes (node.getInfo).id node }

/-- The `unregisterNode(nodeId)`. -/
def unregisterNode (s : TaskScheduler) (nodeId : String) : TaskScheduler :=
  { s with nodes := alDel s.nodes nodeId }

/-- The `availableNodes` filter of `selectNode`: registry values, in
insertion order, that currently satisfy `canAcceptTask()`. -/
def availableNodes (s : TaskScheduler) : List (String × ComputeNode) :=
  s.nodes.filter (fun p => p.2.canAcceptTask)

/-- The `selectRoundRobin(nodes)`: pick `nodes[nextNodeIndex % nodes.length]`
and increment the cursor. The caller guarantees `nodes` is non-empty. -/
def selectRoundRobin (s : TaskScheduler) (ns : List (String × ComputeNode)) :
    Option String × TaskScheduler :=
  ((ns.get? (s.nextNodeIndex % ns.length)).map (fun p => p.1),
   { s with nextNodeIndex := s.nextNodeIndex + 1 })

/-- The `selectLeastLoaded(nodes)`: `reduce` keeping the current node only
when its load is strictly smaller, so the first minimum wins. -/
def selectLeastLoaded (ns : List (String × ComputeNode)) : Option String :=
  match ns with
  | [] => none
  | first :: rest =>
    some (rest.foldl
      (fun least cur => if cur.2.getLoad < least.2.getLoad then cur else least)
      first).1

/-- The `selectRandom(nodes)`: `Math.random()` is modelled by an externally
supplied draw `rnd`, reduced modulo the list length. -/
def selectRandom (ns : List (String × ComputeNode)) (rnd : Nat) :
    Option String :=
  (ns.get? (rnd % ns.length)).map (fun p => p.1)

/-- The `selectByCapability(nodes, task)`: restrict to nodes whose
capabilities array contains `task.type`; if none, fall back to the first
available node; otherwise least-loaded among the capable ones. -/
def selectByCapability (h : Heap) (ns : List (String × ComputeNode))
    (task : Task) : Option String :=
  let capable := ns.filter (fun p => p.2.hasCapability h task.type)
  match capable with
  | [] => (ns.head?).map (fun p => p.1)
  | _ => selectLeastLoaded capable

/-- The `selectNode(task)`: filter to available nodes, return `null` if none,
otherwise dispatch on the configured strategy. Returns the chosen node's
id together with the scheduler state (the round-robin branch advances the
cursor). -/
def selectNode (h : Heap) (s : TaskScheduler) (task : Task) (rnd : Nat) :
    Option String × TaskScheduler :=
  let avail := s.availableNodes
  if avail.isEmpty then (none, s)
  else
    match s.config.strategy with
    | SchedulingStrategy.roundRobin => s.selectRoundRobin avail
    | SchedulingStrategy.leastLoaded => (selectLeastLoaded avail, s)
    | SchedulingStrategy.random => (selectRandom avail rnd, s)
    | SchedulingStrategy.capabilityBased => (selectByCapability h avail task, s)

/-- One iteration of the `scheduleNext` dispatch loop for one task:
select a node; if one is found and `assignTask` succeeds, write the
mutated node back to the registry, splice the task out of the queue
(`indexOf` on the task object — ids are the object identity here) and
start its asynchronous execution (whose synchronous prefix performs no
state change). -/
def tryDispatch (h : Heap) (s : TaskScheduler) (task : Task) (rnd : Nat) :
    TaskScheduler :=
  match s.selectNode h task rnd with
  | (none, s) => s
  | (some nodeId, s) =>
    match alGet s.nodes nodeId with
    | none => s
    | some node =>
      match node.assignTask task with
      | (_, false) => s
      | (node', true) =>
        { s with
          nodes := alSet s.nodes nodeId node'
          taskQueue := s.taskQueue.filter (fun t => t.id ≠ task.id) }

/-- Stable insertion into a descending-priority list: an incoming task
goes after every queued task whose priority is at least its own. -/
def insertDescending (t : Task) : List Task → List Task
  | [] => [t]
  | u :: us =>
    if t.priority ≥ u.priority then t :: u :: us else u :: insertDescending t us

/-- The `taskQueue.sort((a, b) => b.priority - a.priority)`: a stable sort by
descending priority (JS `Array.prototype.sort` is stable). -/
def sortByPriorityDesc (l : List Task) : List Task :=
  match l with
  | [] => []
  | t :: rest => insertDescending t (sortByPriorityDesc rest)

/-- The `scheduleNext()`: nothing to do on an empty queue; otherwise sort the
queue by descending priority, snapshot it (`[...this.taskQueue]`) and try
to dispatch each snapshotted task in order against the current state. -/
def scheduleNext (h : Heap) (s : TaskScheduler) (rnd : Nat) : TaskScheduler :=
  if s.taskQueue.isEmpty then s
  else
    let s := { s with taskQueue := sortByPriorityDesc s.taskQueue }
    let snapshot := s.taskQueue
    snapshot.foldl (fun s task => tryDispatch h s task rnd) s

/-- The `submitTask(task)`: push onto the queue, run one scheduling pass,
return the task id. -/
def submitTask (h : Heap) (s : TaskScheduler) (task : Task) (rnd : Nat) :
    TaskScheduler × String :=
  (scheduleNext h { s with taskQueue := s.taskQueue ++ [task] } rnd, task.id)

/-- The `submitTasks(tasks)`: push all, then one scheduling pass. -/
def submitTasks (h : Heap) (s : TaskScheduler) (tasks : List Task)
    (rnd : Nat) : TaskScheduler × List String :=
  (scheduleNext h { s with taskQueue := s.taskQueue ++ tasks } rnd,
   tasks.map (fun t => t.id))

/-- The `catch` block of the scheduler's `executeTask(node, task)`: on a
failed or timed-out execution, if `task.priority > -maxRetries` the task's
own `priority` field is decremented and the task is pushed back onto the
queue (the retry counter IS the priority field), then a scheduling pass
runs; otherwise the terminal `Max retries exceeded` outcome is recorded. -/
def onExecutionFailure (h : Heap) (s : TaskScheduler) (task : Task)
    (rnd : Nat) : TaskScheduler :=
  if task.priority > -s.config.maxRetries then
    let task' := { task with priority := task.priority - 1 }
    scheduleNext h { s with taskQueue := s.taskQueue ++ [task'] } rnd
  else
    { s with taskResults := alSet s.taskResults task.id TaskOutcome.maxRetriesExceeded }

/-- The success branch of the scheduler's `executeTask(node, task)`:
record the result and run a scheduling pass. -/
def onExecutionSuccess (h : Heap) (s : TaskScheduler) (task : Task)
    (value : String) (rnd : Nat) : TaskScheduler :=
  scheduleNext h
    { s with taskResults := alSet s.taskResults task.id (TaskOutcome.success value) }
    rnd

/-- Settlement of `Promise.race([node.executeTask(task.id), timeout])`
when the node's execution loses to a handler failure: the node sheds the
task (its `catch` path) and the scheduler's `catch` block runs. -/
def settleExecutionFailure (h : Heap) (s : TaskScheduler) (nodeId : String)
    (task : Task) (err : String) (rnd : Nat) : TaskScheduler :=
  let s :=
    match alGet s.nodes nodeId with
    | none => s
    | some node =>
      let (node', _) := node.executeTaskWith task.id (Except.error err)
      { s with nodes := alSet s.nodes nodeId node' }
  onExecutionFailure h s task rnd

/-- The `getResult(taskId)`. -/
def getResult (s : TaskScheduler) (taskId : String) : Option TaskOutcome :=
  alGet s.taskResults taskId

/-- The `isComplete(taskId)`. -/
def isComplete (s : TaskScheduler) (taskId : String) : Bool :=
  (s.getResult taskId).isSome

end TaskScheduler

/-- The `createTask(id, type, payload, priority = 0)`. -/
def createTask (id type payload : String) (priority : Int := 0)
    (createdAt : Int := 0) : Task :=
  { id := id
    type := type
    payload := payload
    priority := priority
    createdAt := createdAt }

/-! ## Inter-node communication (`communication.ts`) -/

/-- The `MessageType`. -/
inductive MessageType where
  | request
  | response
  | broadcast
  | heartbeat
deriving Repr, DecidableEq

/-- The `Message` interface. `from` is a Lean keyword, so the field is
named `sender`; `to : string | string[]` is modelled as a list. -/
structure Message where
  id : String
  type : MessageType
  sender : String
  recipients : List String
  payload : String
  timestamp : Int
deriving Repr, DecidableEq

/-- The `CommunicationConfig` after the constructor has filled in defaults. -/
structure CommunicationConfig where
  heartbeatInterval : Int
  messageTimeout : Int
  maxRetries : Int
deriving Repr, DecidableEq

/-- The `Partial<CommunicationConfig>`. -/
structure PartialCommunicationConfig where
  heartbeatInterval : Option Int := none
  messageTimeout : Option Int := none
  maxRetries : Option Int := none
deriving Repr, DecidableEq

/-- Status of a tracked peer. -/
inductive PeerStatus where
  | online
  | offline
deriving Repr, DecidableEq

/-- An entry of the `peers` map: `{ lastSeen, status }`. -/
structure PeerRecord where
  lastSeen : Int
  status : PeerStatus
deriving Repr, DecidableEq

/-- The state of a `Communication` instance. The runtime's interval-timer
table is made explicit so that `setInterval`/`clearInterval` effects are
observable: `timersCreated` counts handles ever returned by `setInterval`
(handles are `0, 1, 2, ...` in creation order) and `timersCleared` lists
the handles passed to `clearInterval`; a handle is live iff created and
not cleared. `heartbeatTimer` holds the handle stored in the instance
field, if any. Message handlers are external closures that do not mutate
this state, so the `messageHandlers` map is not carried. -/
structure Communication where
  nodeId : String
  peers : List (String × PeerRecord)
  pendingMessages : List String
  config : CommunicationConfig
  heartbeatTimer : Option Nat
  timersCreated : Nat
  timersCleared : List Nat
deriving Repr, DecidableEq

namespace Communication

/-- The `Communication` constructor: defaults `heartbeatInterval` to
5000, `messageTimeout` to 10000 and `maxRetries` to 3, each via `||`. -/
def construct (nodeId : String)
    (config : PartialCommunicationConfig := {}) : Communication :=
  { nodeId := nodeId
    peers := []
    pendingMessages := []
    config :=
      { heartbeatInterval := orDefaultNum config.heartbeatInterval 5000
        messageTimeout := orDefaultNum config.messageTimeout 10000
        maxRetries := orDefaultNum config.maxRetries 3 }
    heartbeatTimer := none
    timersCreated := 0
    timersCleared := [] }

/-- The `startHeartbeat()`: `this.heartbeatTimer = setInterval(...)` — a
fresh interval timer is always created and its handle overwrites the
field, whatever the field held before. -/
def startHeartbeat (c : Communication) : Communication :=
  { c with
    heartbeatTimer := some c.timersCreated
    timersCreated := c.timersCreated + 1 }

/-- The `start()`: just `startHeartbeat()`. -/
def start (c : Communication) : Communication :=
  c.startHeartbeat

/-- The `stop()`: clear the interval behind the stored handle, if any, and
reset the field to `undefined`. -/
def stop (c : Communication) : Communication :=
  match c.heartbeatTimer with
  | some handle =>
    { c with
      heartbeatTimer := none
      timersCleared := c.timersCleared ++ [handle] }
  | none => c

/-- The interval-timer handles currently live: created, not cleared. -/
def liveTimers (c : Communication) : List Nat :=
  (List.range c.timersCreated).filter (fun h => h ∉ c.timersCleared)

/-- The `registerPeer(peerId)` at current time `now`: status online,
`lastSeen = Date.now()`. -/
def registerPeer (c : Communication) (now : Int) (peerId : String) :
    Communication :=
  { c with peers := alSet c.peers peerId ⟨now, PeerStatus.online⟩ }

/-- The `unregisterPeer(peerId)`. -/
def unregisterPeer (c : Communication) (peerId : String) : Communication :=
  { c with peers := alDel c.peers peerId }

/-- The `updatePeer(peerId)` at current time `now`: refresh an existing
record to online/now, or register an unknown sender. -/
def updatePeer (c : Communication) (now : Int) (peerId : String) :
    Communication :=
  match alGet c.peers peerId with
  | some _ => { c with peers := alSet c.peers peerId ⟨now, PeerStatus.online⟩ }
  | none => c.registerPeer now peerId

/-- The `handleMessage(message)` at current time `now`: the registered
handler for the type runs (an external closure, no effect on this state);
then, unless the sender is the local node, the sender's peer record is
refreshed. -/
def handleMessage (c : Communication) (now : Int) (msg : Message) :
    Communication :=
  if msg.sender ≠ c.nodeId then c.updatePeer now msg.sender else c

/-- The `checkPeerStatus()` at scan time `now`: every peer whose
`now - lastSeen` exceeds `3 * heartbeatInterval` is marked offline; other
records are untouched, and no record is removed. -/
def checkPeerStatus (c : Communication) (now : Int) : Communication :=
  let timeout := c.config.heartbeatInterval * 3
  { c with
    peers := c.peers.map (fun p =>
      if now - p.2.lastSeen > timeout then
        (p.1, { p.2 with status := PeerStatus.offline })
      else p) }

/-- The `getPeerStatus(peerId)`: online/offline, or `none` for unknown. -/
def getPeerStatus (c : Communication) (peerId : String) : Option PeerStatus :=
  (alGet c.peers peerId).map (fun r => r.status)

end Communication

/-- The `createCommunication(nodeId, config?)`. -/
def createCommunication (nodeId : String)
    (config : PartialCommunicationConfig := {}) : Communication :=
  Communication.construct nodeId config

/-- An externally observable event hitting a `Communication` instance,
tagged with the `Date.now()` value at which it runs. `scan` is one firing
of the heartbeat timer's `checkPeerStatus` (the `sendHeartbeat` half only
emits messages and touches no peer record). -/
inductive CommEvent where
  | register (peerId : String)
  | unregister (peerId : String)
  | message (msg : Message)
  | scan
deriving Repr, DecidableEq

/-- Apply one timed event. -/
def applyCommEvent (c : Communication) (e : Int × CommEvent) : Communication :=
  match e.2 with
  | CommEvent.register peerId => c.registerPeer e.1 peerId
  | CommEvent.unregister peerId => c.unregisterPeer peerId
  | CommEvent.message msg => c.handleMessage e.1 msg
  | CommEvent.scan => c.checkPeerStatus e.1

/-- Run a timed event trace. -/
def runCommEvents (c : Communication) (trace : List (Int × CommEvent)) :
    Communication :=
  trace.foldl applyCommEvent c

/-! ## Operation traces on a compute node -/

/-- One public operation on a `ComputeNode` (execution settlements
included, with the awaited handler outcome made explicit). -/
inductive NodeOp where
  | assign (task : Task)
  | execWith (taskId : String) (outcome : Except String String)
  | exec (taskId : String)
  | opSetStatus (st : NodeStatus)
  | addCap (c : String)
  | removeCap (c : String)
deriving Repr

/-- Apply one node operation to the heap/node pair, discarding return
values. -/
def applyNodeOp (hn : Heap × ComputeNode) (op : NodeOp) : Heap × ComputeNode :=
  match op with
  | NodeOp.assign task => (hn.1, (hn.2.assignTask task).1)
  | NodeOp.execWith taskId outcome =>
    (hn.1, (hn.2.executeTaskWith taskId outcome).1)
  | NodeOp.exec taskId => (hn.1, (hn.2.executeTask taskId).1)
  | NodeOp.opSetStatus st => (hn.1, hn.2.setStatus st)
  | NodeOp.addCap c => (hn.2.addCapability hn.1 c, hn.2)
  | NodeOp.removeCap c => (hn.2.removeCapability hn.1 c, hn.2)

/-- Run a sequence of node operations. -/
def runNodeOps (hn : Heap × ComputeNode) (ops : List NodeOp) :
    Heap × ComputeNode :=
  ops.foldl applyNodeOp hn

/-! ## Invariants -/

/-- Data invariant of a `ComputeNode`: the ceiling is the hard-coded 4,
the task count never exceeds it, and the stored `load` is exactly
`tasks.size / 4`. -/
def NodeInv (n : ComputeNode) : Prop :=
  n.maxConcurrentTasks = 4 ∧ n.tasks.length ≤ 4 ∧
  n.info.load = (n.tasks.length : Rat) / 4

/-- Peer-staleness invariant at time `t`: every peer currently marked
offline was marked so because its `lastSeen` had aged past
`3 × heartbeatInterval`, and the gap only grows while it stays offline. -/
def PeersStale (c : Communication) (t : Int) : Prop :=
  ∀ p ∈ c.peers, p.2.status = PeerStatus.offline →
    c.config.heartbeatInterval * 3 < t - p.2.lastSeen

/-- Timer-table sanity: every handle ever passed to `clearInterval` was
previously returned by `setInterval`. Holds in every reachable state. -/
def TimersWF (c : Communication) : Prop :=
  ∀ x ∈ c.timersCleared, x < c.timersCreated

/-! ## Concrete instances used by counterexamples and witnesses -/

/-- A heap holding two empty capability arrays (references 0 and 1). -/
def demoHeap : Heap := ⟨[[], []]⟩

/-- Node `A` of the round-robin scenario. -/
def nodeA : ComputeNode := createComputeNode "A" "localhost" 8080 0

/-- Node `B` of the round-robin scenario. -/
def nodeB : ComputeNode := createComputeNode "B" "localhost" 8081 1

/-- The first scenario task. -/
def task1 : Task := createTask "task1" "inference" "p"

/-- The second scenario task. -/
def task2 : Task := createTask "task2" "inference" "p"

/-- Round-robin scheduler with nodes `A` then `B` registered. -/
def rrSched0 : TaskScheduler :=
  ((TaskScheduler.construct
      { strategy := some SchedulingStrategy.roundRobin }).registerNode
    nodeA).registerNode nodeB

/-- State after `submitTask(task1)`. -/
def rrSched1 : TaskScheduler := (rrSched0.submitTask demoHeap task1 0).1

/-- State after `submitTask(task1)` then `submitTask(task2)`. -/
def rrSched2 : TaskScheduler := (rrSched1.submitTask demoHeap task2 0).1

/-- A node holding exactly `task1`. -/
def busyNode : ComputeNode := (nodeA.assignTask task1).1

/-- Default-config scheduler (`maxRetries = 3`) with node `A`
registered. -/
def retrySched : TaskScheduler :=
  (TaskScheduler.construct {}).registerNode nodeA

/-- A task submitted with priority 1 that will fail on every attempt. -/
def retryTask : Task := createTask "taskF" "x" "p" 1

/-- The failing task as currently held by node `A` (its `priority` field
mutates across retries, so each settlement reads the stored object). -/
def currentRetryTask (s : TaskScheduler) : Task :=
  ((alGet s.nodes "A").bind (fun n => alGet n.tasks "taskF")).getD retryTask

/-- One failed execution attempt: the race settles with an error for the
task node `A` currently holds. -/
def failStep (s : TaskScheduler) : TaskScheduler :=
  s.settleExecutionFailure demoHeap "A" (currentRetryTask s) "boom" 0

/-- The scheduler state after submitting the failing task and suffering
`k` consecutive execution failures. -/
def retryState : Nat → TaskScheduler
  | 0 => (retrySched.submitTask demoHeap retryTask 0).1
  | k + 1 => failStep (retryState k)

/-- A priority-5 task used to exhibit the priority mutation. -/
def task5 : Task := createTask "task5" "x" "p" 5

/-- A scheduler with no registered nodes (so requeued tasks stay
queued). -/
def emptySched : TaskScheduler := TaskScheduler.construct {}

/-- A fresh communication instance with default config. -/
def comm0 : Communication := Communication.construct "n1" {}

/-! ## Association-list lemmas -/

theorem alKeys_cons {α : Type} (k0 : String) (v0 : α)
    (tl : List (String × α)) : alKeys ((k0, v0) :: tl) = k0 :: alKeys tl :=
  rfl

theorem alSet_length_le {α : Type} (l : List (String × α)) (k : String)
    (v : α) : (alSet l k v).length ≤ l.length + 1 := by
  induction l with
  | nil => simp [alSet]
  | cons hd tl ih =>
    obtain ⟨k0, v0⟩ := hd
    by_cases hk : k0 = k
    · simp [alSet, hk]
    · simp [alSet, hk]
      omega

theorem alDel_length_le {α : Type} (l : List (String × α)) (k : String) :
    (alDel l k).length ≤ l.length := by
  induction l with
  | nil => simp [alDel]
  | cons hd tl ih =>
    obtain ⟨k0, v0⟩ := hd
    by_cases hk : k0 = k
    · simp [alDel, hk]
    · simp [alDel, hk]
      omega

theorem mem_alSet {α : Type} {l : List (String × α)} {k : String} {v : α}
    {p : String × α} (hp : p ∈ alSet l k v) : p = (k, v) ∨ p ∈ l := by
  induction l with
  | nil => simpa [alSet] using hp
  | cons hd tl ih =>
    obtain ⟨k0, v0⟩ := hd
    by_cases hk : k0 = k
    · simp [alSet, hk] at hp
      rcases hp with h | h
      · exact Or.inl (by simp [h])
      · exact Or.inr (List.mem_cons_of_mem _ h)
    · simp [alSet, hk] at hp
      rcases hp with h | h
      · exact Or.inr (by simp [h])
      · rcases ih h with h' | h'
        · exact Or.inl h'
        · exact Or.inr (List.mem_cons_of_mem _ h')

theorem mem_alDel {α : Type} {l : List (String × α)} {k : String}
    {p : String × α} (hp : p ∈ alDel l k) : p ∈ l := by
  induction l with
  | nil => simp [alDel] at hp
  | cons hd tl ih =>
    obtain ⟨k0, v0⟩ := hd
    by_cases hk : k0 = k
    · simp [alDel, hk] at hp
      exact List.mem_cons_of_mem _ hp
    · simp [alDel, hk] at hp
      rcases hp with h | h
      · simp [h]
      · exact List.mem_cons_of_mem _ (ih h)

theorem alGet_alSet_self {α : Type} (l : List (String × α)) (k : String)
    (v : α) : alGet (alSet l k v) k = some v := by
  induction l with
  | nil => simp [alSet, alGet]
  | cons hd tl ih =>
    obtain ⟨k0, v0⟩ := hd
    by_cases hk : k0 = k <;> simp [alSet, alGet, hk, ih]

theorem alGet_eq_none_of_not_mem {α : Type} {l : List (String × α)}
    {k : String} (h : k ∉ alKeys l) : alGet l k = none := by
  induction l with
  | nil => simp [alGet]
  | cons hd tl ih =>
    obtain ⟨k0, v0⟩ := hd
    rw [alKeys_cons] at h
    simp only [List.mem_cons, not_or] at h
    have hk : ¬ k0 = k := fun hc => h.1 hc.symm
    simp [alGet, hk, ih h.2]

theorem alGet_alDel_self {α : Type} {l : List (String × α)} {k : String}
    (hnd : (alKeys l).Nodup) : alGet (alDel l k) k = none := by
  induction l with
  | nil => simp [alDel, alGet]
  | cons hd tl ih =>
    obtain ⟨k0, v0⟩ := hd
    rw [alKeys_cons, List.nodup_cons] at hnd
    by_cases hk : k0 = k
    · subst hk
      show alGet (alDel ((k0, v0) :: tl) k0) k0 = none
      simp only [alDel, if_pos rfl]
      exact alGet_eq_none_of_not_mem hnd.1
    · simp [alDel, alGet, hk]
      exact ih hnd.2

/-! ## Node invariant preservation -/

theorem nodeInv_construct (id address : String) (port : Int)
    (capsRef : Nat) : NodeInv (ComputeNode.construct id address port capsRef) := by
  refine ⟨rfl, by simp [ComputeNode.construct], ?_⟩
  simp [ComputeNode.construct]

theorem assignTask_accepted_fields (n : ComputeNode) (t : Task)
    (hc : n.canAcceptTask = true) :
    (n.assignTask t).1.maxConcurrentTasks = n.maxConcurrentTasks ∧
    (n.assignTask t).1.tasks
      = alSet n.tasks t.id { t with assignedTo := some n.info.id } ∧
    (n.assignTask t).1.info.load
      = ((alSet n.tasks t.id { t with assignedTo := some n.info.id }).length : Rat)
          / (n.maxConcurrentTasks : Rat) := by
  rw [ComputeNode.assignTask, if_neg (by simp [hc])]
  simp only [ComputeNode.updateLoad]
  split
  · exact ⟨rfl, rfl, rfl⟩
  · exact ⟨rfl, rfl, rfl⟩

theorem nodeInv_assignTask (n : ComputeNode) (t : Task) (h : NodeInv n) :
    NodeInv (n.assignTask t).1 := by
  obtain ⟨h4, hle, hload⟩ := h
  by_cases hc : n.canAcceptTask = true
  · have hlt : n.tasks.length < n.maxConcurrentTasks := by
      have hc' := hc
      simp only [ComputeNode.canAcceptTask, decide_eq_true_eq] at hc'
      exact hc'.2
    have hlen : (alSet n.tasks t.id { t with assignedTo := some n.info.id }).length ≤ 4 := by
      have := alSet_length_le n.tasks t.id { t with assignedTo := some n.info.id }
      omega
    obtain ⟨k1, k2, k3⟩ := assignTask_accepted_fields n t hc
    refine ⟨by rw [k1, h4], by rw [k2]; exact hlen, ?_⟩
    rw [k3, k2, h4]
    norm_num
  · rw [ComputeNode.assignTask, if_pos hc]
    exact ⟨h4, hle, hload⟩

theorem executeTaskWith_ok_fields (n : ComputeNode) (taskId : String)
    (r : String) (task : Task) (hg : alGet n.tasks taskId = some task) :
    (n.executeTaskWith taskId (Except.ok r)).1.maxConcurrentTasks
      = n.maxConcurrentTasks ∧
    (n.executeTaskWith taskId (Except.ok r)).1.tasks = alDel n.tasks taskId ∧
    (n.executeTaskWith taskId (Except.ok r)).1.info.load
      = ((alDel n.tasks taskId).length : Rat) / (n.maxConcurrentTasks : Rat) := by
  rw [ComputeNode.executeTaskWith]
  rw [hg]
  simp only [ComputeNode.updateLoad]
  split
  · exact ⟨rfl, rfl, rfl⟩
  · exact ⟨rfl, rfl, rfl⟩

theorem executeTaskWith_error_fields (n : ComputeNode) (taskId : String)
    (e : String) (task : Task) (hg : alGet n.tasks taskId = some task) :
    (n.executeTaskWith taskId (Except.error e)).1.maxConcurrentTasks
      = n.maxConcurrentTasks ∧
    (n.executeTaskWith taskId (Except.error e)).1.tasks = alDel n.tasks taskId ∧
    (n.executeTaskWith taskId (Except.error e)).1.info.load
      = ((alDel n.tasks taskId).length : Rat) / (n.maxConcurrentTasks : Rat) ∧
    (n.executeTaskWith taskId (Except.error e)).1.info.status = n.info.status ∧
    (n.executeTaskWith taskId (Except.error e)).2 = Except.error e := by
  rw [ComputeNode.executeTaskWith]
  rw [hg]
  simp only [ComputeNode.updateLoad]
  refine ⟨?_, ?_, ?_, ?_, ?_⟩ <;> trivial

theorem nodeInv_executeTaskWith (n : ComputeNode) (taskId : String)
    (outcome : Except String String) (h : NodeInv n) :
    NodeInv (n.executeTaskWith taskId outcome).1 := by
  obtain ⟨h4, hle, hload⟩ := h
  have hdel : (alDel n.tasks taskId).length ≤ 4 := by
    have := alDel_length_le n.tasks taskId
    omega
  cases hg : alGet n.tasks taskId with
  | none =>
    simp only [ComputeNode.executeTaskWith.eq_def, hg]
    exact ⟨h4, hle, hload⟩
  | some task =>
    cases outcome with
    | ok r =>
      obtain ⟨k1, k2, k3⟩ := executeTaskWith_ok_fields n taskId r task hg
      refine ⟨by rw [k1, h4], by rw [k2]; exact hdel, ?_⟩
      rw [k3, k2, h4]
      norm_num
    | error e =>
      obtain ⟨k1, k2, k3, _⟩ := executeTaskWith_error_fields n taskId e task hg
      refine ⟨by rw [k1, h4], by rw [k2]; exact hdel, ?_⟩
      rw [k3, k2, h4]
      norm_num

theorem nodeInv_executeTask (n : ComputeNode) (taskId : String)
    (h : NodeInv n) : NodeInv (n.executeTask taskId).1 := by
  cases hg : alGet n.tasks taskId with
  | none =>
    simp only [ComputeNode.executeTask, hg]
    exact h
  | some task =>
    simp only [ComputeNode.executeTask, hg]
    exact nodeInv_executeTaskWith n taskId (ComputeNode.processTask task) h

theorem nodeInv_setStatus (n : ComputeNode) (st : NodeStatus)
    (h : NodeInv n) : NodeInv (n.setStatus st) := by
  obtain ⟨h4, hle, hload⟩ := h
  exact ⟨h4, hle, hload⟩

theorem nodeInv_applyNodeOp (hn : Heap × ComputeNode) (op : NodeOp)
    (h : NodeInv hn.2) : NodeInv (applyNodeOp hn op).2 := by
  cases op with
  | assign t => exact nodeInv_assignTask hn.2 t h
  | execWith taskId outcome => exact nodeInv_executeTaskWith hn.2 taskId outcome h
  | exec taskId => exact nodeInv_executeTask hn.2 taskId h
  | opSetStatus st => exact nodeInv_setStatus hn.2 st h
  | addCap c => exact h
  | removeCap c => exact h

theorem nodeInv_runNodeOps (hn : Heap × ComputeNode) (ops : List NodeOp)
    (h : NodeInv hn.2) : NodeInv (runNodeOps hn ops).2 := by
  induction ops generalizing hn with
  | nil => exact h
  | cons op rest ih =>
    exact ih (applyNodeOp hn op) (nodeInv_applyNodeOp hn op h)

/-! ## Communication lemmas -/

theorem updatePeer_peers (c : Communication) (now : Int) (peerId : String) :
    (c.updatePeer now peerId).peers
      = alSet c.peers peerId ⟨now, PeerStatus.online⟩ := by
  cases hg : alGet c.peers peerId with
  | none => simp [Communication.updatePeer, Communication.registerPeer, hg]
  | some r => simp [Communication.updatePeer, hg]

theorem updatePeer_frame (c : Communication) (now : Int) (peerId : String) :
    (c.updatePeer now peerId).config = c.config ∧
    (c.updatePeer now peerId).nodeId = c.nodeId := by
  cases hg : alGet c.peers peerId with
  | none => simp [Communication.updatePeer, Communication.registerPeer, hg]
  | some r => simp [Communication.updatePeer, hg]

theorem peersStale_applyCommEvent {c : Communication} {e : Int × CommEvent}
    {t : Int} (ht : e.1 ≤ t) (h : PeersStale c t) :
    PeersStale (applyCommEvent c e) t := by
  obtain ⟨te, ev⟩ := e
  cases ev with
  | register peerId =>
    intro p hp hoff
    rcases mem_alSet hp with hp' | hp'
    · subst hp'
      simp at hoff
    · exact h p hp' hoff
  | unregister peerId =>
    intro p hp hoff
    exact h p (mem_alDel hp) hoff
  | message msg =>
    simp only [applyCommEvent, Communication.handleMessage]
    split
    · intro p hp hoff
      rw [show (c.updatePeer te msg.sender).peers
            = alSet c.peers msg.sender ⟨te, PeerStatus.online⟩
          from updatePeer_peers c te msg.sender] at hp
      rw [show (c.updatePeer te msg.sender).config = c.config
          from (updatePeer_frame c te msg.sender).1]
      rcases mem_alSet hp with hp' | hp'
      · subst hp'
        simp at hoff
      · exact h p hp' hoff
    · exact h
  | scan =>
    intro p hp hoff
    have hp' : p ∈ c.peers.map (fun q =>
        if te - q.2.lastSeen > c.config.heartbeatInterval * 3 then
          (q.1, { q.2 with status := PeerStatus.offline })
        else q) := hp
    have hcfg : (applyCommEvent c (te, CommEvent.scan)).config = c.config := rfl
    rw [hcfg]
    rcases List.mem_map.mp hp' with ⟨q, hq, hfq⟩
    by_cases hstale : te - q.2.lastSeen > c.config.heartbeatInterval * 3
    · rw [if_pos hstale] at hfq
      subst hfq
      simp only
      omega
    · rw [if_neg hstale] at hfq
      subst hfq
      exact h q hq hoff

theorem peersStale_runCommEvents (trace : List (Int × CommEvent))
    (c : Communication) (t : Int) (htimes : ∀ e ∈ trace, e.1 ≤ t)
    (h : PeersStale c t) : PeersStale (runCommEvents c trace) t := by
  induction trace generalizing c with
  | nil => exact h
  | cons e rest ih =>
    exact ih (applyCommEvent c e)
      (fun e' he' => htimes e' (List.mem_cons_of_mem _ he'))
      (peersStale_applyCommEvent (htimes e (List.mem_cons_self _ _)) h)

theorem peersStale_construct (nodeId : String)
    (cfg : PartialCommunicationConfig) (t : Int) :
    PeersStale (Communication.construct nodeId cfg) t := by
  intro p hp
  simp [Communication.construct] at hp

theorem alKeys_checkPeerStatus (c : Communication) (now : Int) :
    alKeys (c.checkPeerStatus now).peers = alKeys c.peers := by
  show alKeys (c.peers.map _) = alKeys c.peers
  generalize c.peers = l
  induction l with
  | nil => rfl
  | cons hd tl ih =>
    simp only [List.map_cons, alKeys, List.map]
    rw [show ∀ q : String × PeerRecord, ((if now - q.2.lastSeen
          > c.config.heartbeatInterval * 3 then
            (q.1, { q.2 with status := PeerStatus.offline })
          else q)).1 = q.1
        from fun q => by split <;> rfl]
    simp only [alKeys, List.map] at ih
    rw [ih]

theorem checkPeerStatus_marks (c : Communication) (t : Int)
    (h : PeersStale c t) :
    ∀ p ∈ (c.checkPeerStatus t).peers,
      (p.2.status = PeerStatus.offline ↔
        c.config.heartbeatInterval * 3 < t - p.2.lastSeen) := by
  intro p hp
  have hp' : p ∈ c.peers.map (fun q =>
      if t - q.2.lastSeen > c.config.heartbeatInterval * 3 then
        (q.1, { q.2 with status := PeerStatus.offline })
      else q) := hp
  rcases List.mem_map.mp hp' with ⟨q, hq, hfq⟩
  by_cases hstale : t - q.2.lastSeen > c.config.heartbeatInterval * 3
  · rw [if_pos hstale] at hfq
    subst hfq
    simpa using hstale
  · rw [if_neg hstale] at hfq
    subst hfq
    constructor
    · intro hoff
      exact absurd (h q hq hoff) hstale
    · intro hstale'
      exact absurd hstale' hstale

theorem handleMessage_refreshes (c : Communication) (now : Int)
    (msg : Message) (hs : msg.sender ≠ c.nodeId) :
    alGet (c.handleMessage now msg).peers msg.sender
      = some ⟨now, PeerStatus.online⟩ := by
  simp only [Communication.handleMessage, if_pos hs]
  rw [updatePeer_peers]
  exact alGet_alSet_self c.peers msg.sender ⟨now, PeerStatus.online⟩

theorem mem_liveTimers (c : Communication) (x : Nat) :
    x ∈ c.liveTimers ↔ x < c.timersCreated ∧ x ∉ c.timersCleared := by
  simp [Communication.liveTimers, List.mem_filter, List.mem_range]

theorem executeTaskWith_ok_status (n : ComputeNode) (taskId : String)
    (r : String) (task : Task) (hg : alGet n.tasks taskId = some task)
    (hempty : (alDel n.tasks taskId).length = 0) :
    (n.executeTaskWith taskId (Except.ok r)).1.info.status
      = NodeStatus.idle := by
  rw [ComputeNode.executeTaskWith]
  rw [hg]
  simp [ComputeNode.updateLoad, hempty]

theorem heapGet_set_self (arr : List (List String)) (r : Nat)
    (a : List String) (hr : r < arr.length) : (arr.set r a).getD r [] = a := by
  induction arr generalizing r with
  | nil => simp at hr
  | cons hd tl ih =>
    cases r with
    | zero => rfl
    | succ r' => simpa using ih r' (by simpa using hr)

/-! ## Claims -/

/-- C1 (evaluation at the failing input): the spec claims a failing task
is requeued at most `maxRetries` times regardless of its initial
priority, the `(maxRetries+1)`-th failure being terminal. The code
instead treats the task's own `priority` field as the retry budget
(`task.priority > -maxRetries`, then `task.priority--`). With the default
`maxRetries = 3` and a task submitted at priority 1 that fails on every
attempt, the fourth failure — which the claim says must finalize — still
requeues the task (no result is recorded), and only the fifth failure
records the terminal `Max retries exceeded` outcome. -/
theorem c1_retry_bound_depends_on_priority :
    retrySched.config.maxRetries = 3 ∧
    retryTask.priority = 1 ∧
    TaskScheduler.isComplete (retryState 4) "taskF" = false ∧
    TaskScheduler.getResult (retryState 5) "taskF"
      = some TaskOutcome.maxRetriesExceeded := by
  refine ⟨rfl, rfl, ?_, ?_⟩ <;> decide

/-- C2 (counterexample): a node holding exactly one task whose handler
fails ends with an empty active set but status still `busy` — the
source `catch` block removes the task and recomputes the load but never
restores the status to idle, refuting the claim that the status is
restored whether the handler succeeds or throws. -/
theorem c2_counterexample_status_not_restored :
    (busyNode.executeTaskWith "task1" (Except.error "boom")).1.tasks = [] ∧
    (busyNode.executeTaskWith "task1" (Except.error "boom")).1.info.status
      = NodeStatus.busy := by
  decide

/-- C2 (amended): after `executeTask` settles on a present task, the task
is removed from the active set whether the handler succeeds or throws;
when the handler succeeds and the set becomes empty the status is
restored to idle; but when the handler throws the status is left exactly
as it was (possibly `busy` with an empty set) and the error is
rethrown — the capacity slot itself is still freed, since admission
depends only on the task count and the offline flag. -/
theorem c2_amended_cleanup_guarantee (n : ComputeNode) (taskId : String)
    (outcome : Except String String)
    (hpresent : (alGet n.tasks taskId).isSome)
    (hnodup : (alKeys n.tasks).Nodup) :
    alGet (n.executeTaskWith taskId outcome).1.tasks taskId = none ∧
    (∀ r, outcome = Except.ok r →
      (n.executeTaskWith taskId outcome).1.tasks = [] →
      (n.executeTaskWith taskId outcome).1.info.status = NodeStatus.idle) ∧
    (∀ e, outcome = Except.error e →
      (n.executeTaskWith taskId outcome).1.info.status = n.info.status ∧
      (n.executeTaskWith taskId outcome).2 = Except.error e) := by
  cases hg : alGet n.tasks taskId with
  | none => rw [hg] at hpresent; simp at hpresent
  | some task =>
    cases outcome with
    | ok r =>
      obtain ⟨k1, k2, k3⟩ := executeTaskWith_ok_fields n taskId r task hg
      refine ⟨by rw [k2]; exact alGet_alDel_self hnodup, ?_, ?_⟩
      · intro r' hr' hempty
        rw [k2] at hempty
        exact executeTaskWith_ok_status n taskId r task hg
          (by rw [hempty]; rfl)
      · intro e he
        exact absurd he (by simp)
    | error e =>
      obtain ⟨k1, k2, k3, k4, k5⟩ := executeTaskWith_error_fields n taskId e task hg
      refine ⟨by rw [k2]; exact alGet_alDel_self hnodup, ?_, ?_⟩
      · intro r hr
        exact absurd hr (by simp)
      · intro e' he'
        have : e' = e := by
          simpa using he'.symm
        subst this
        exact ⟨k4, k5⟩

/-- C2 amended, witnessed at a concrete input: `busyNode` holds exactly
`task1`; a successful settlement removes it and restores idle status. -/
theorem c2_amended_witness :
    (alGet busyNode.tasks "task1").isSome ∧
    (alKeys busyNode.tasks).Nodup ∧
    (alGet (busyNode.executeTaskWith "task1" (Except.ok "r")).1.tasks "task1"
        = none ∧
     (∀ r, (Except.ok "r" : Except String String) = Except.ok r →
       (busyNode.executeTaskWith "task1" (Except.ok "r")).1.tasks = [] →
       (busyNode.executeTaskWith "task1" (Except.ok "r")).1.info.status
         = NodeStatus.idle) ∧
     (∀ e, (Except.ok "r" : Except String String) = Except.error e →
       (busyNode.executeTaskWith "task1" (Except.ok "r")).1.info.status
         = busyNode.info.status ∧
       (busyNode.executeTaskWith "task1" (Except.ok "r")).2
         = Except.error e)) :=
  ⟨by decide, by decide,
    c2_amended_cleanup_guarantee busyNode "task1" (Except.ok "r")
      (by decide) (by decide)⟩

/-- C3 (evaluation at the failing input): the spec claims a requeued task
re-enters the queue with the priority it was submitted with, retries
being counted in a separate field. The code has no separate retry
counter: the `catch` block decrements the task's own `priority`. A
priority-5 task requeued after one failure sits in the queue with
priority 4. -/
theorem c3_priority_mutated_on_retry :
    task5.priority = 5 ∧
    (TaskScheduler.onExecutionFailure demoHeap emptySched task5 0).taskQueue.map
        Task.priority = [4] := by
  refine ⟨rfl, ?_⟩
  decide

/-- C4: after any sequence of public node operations starting from the
constructor, the node's stored `load` equals its active task count
divided by its concurrency ceiling, and lies in `[0, 1]`. -/
theorem c4_load_invariant (id address : String) (port : Int)
    (capsRef : Nat) (h : Heap) (ops : List NodeOp) :
    (runNodeOps (h, ComputeNode.construct id address port capsRef) ops).2.info.load
      = (((runNodeOps (h, ComputeNode.construct id address port capsRef) ops).2.tasks.length : Rat)
          / ((runNodeOps (h, ComputeNode.construct id address port capsRef) ops).2.maxConcurrentTasks : Rat)) ∧
    0 ≤ (runNodeOps (h, ComputeNode.construct id address port capsRef) ops).2.info.load ∧
    (runNodeOps (h, ComputeNode.construct id address port capsRef) ops).2.info.load ≤ 1 := by
  obtain ⟨h4, hle, hload⟩ :=
    nodeInv_runNodeOps (h, ComputeNode.construct id address port capsRef) ops
      (nodeInv_construct id address port capsRef)
  refine ⟨?_, ?_, ?_⟩
  · rw [hload, h4]
    norm_num
  · rw [hload]
    positivity
  · rw [hload]
    rw [div_le_one (by norm_num)]
    exact_mod_cast hle

/-- C5: in any state reachable by timed events none of which is later
than the scan time `t`, a heartbeat scan at `t` leaves a peer offline iff
`now − lastSeen` exceeds `3 × heartbeatInterval`; the scan preserves the
set of peer records; and a `handleMessage` from any sender other than the
local node resets that peer's record to online with `lastSeen` equal to
the message-processing time. -/
theorem c5_heartbeat_aging (nodeId : String)
    (cfg : PartialCommunicationConfig) (trace : List (Int × CommEvent))
    (t : Int) (htimes : ∀ e ∈ trace, e.1 ≤ t) :
    (∀ p ∈ ((runCommEvents (Communication.construct nodeId cfg) trace).checkPeerStatus t).peers,
      (p.2.status = PeerStatus.offline ↔
        (runCommEvents (Communication.construct nodeId cfg) trace).config.heartbeatInterval * 3
          < t - p.2.lastSeen)) ∧
    alKeys ((runCommEvents (Communication.construct nodeId cfg) trace).checkPeerStatus t).peers
      = alKeys (runCommEvents (Communication.construct nodeId cfg) trace).peers ∧
    (∀ (d : Communication) (now : Int) (msg : Message),
      msg.sender ≠ d.nodeId →
      alGet (d.handleMessage now msg).peers msg.sender
        = some ⟨now, PeerStatus.online⟩) :=
  ⟨checkPeerStatus_marks _ t
      (peersStale_runCommEvents trace _ t htimes
        (peersStale_construct nodeId cfg t)),
   alKeys_checkPeerStatus _ t,
   fun d now msg hs => handleMessage_refreshes d now msg hs⟩

/-- C5 witnessed at the spec's own scenario: `heartbeatInterval = 100`, a
peer registered at time 0 and silent until a scan at time 350. -/
theorem c5_heartbeat_aging_witness :
    (∀ e ∈ [((0 : Int), CommEvent.register "p")], e.1 ≤ (350 : Int)) ∧
    ((∀ p ∈ ((runCommEvents (Communication.construct "n1" { heartbeatInterval := some 100 }) [((0 : Int), CommEvent.register "p")]).checkPeerStatus 350).peers,
      (p.2.status = PeerStatus.offline ↔
        (runCommEvents (Communication.construct "n1" { heartbeatInterval := some 100 }) [((0 : Int), CommEvent.register "p")]).config.heartbeatInterval * 3
          < 350 - p.2.lastSeen)) ∧
    alKeys ((runCommEvents (Communication.construct "n1" { heartbeatInterval := some 100 }) [((0 : Int), CommEvent.register "p")]).checkPeerStatus 350).peers
      = alKeys (runCommEvents (Communication.construct "n1" { heartbeatInterval := some 100 }) [((0 : Int), CommEvent.register "p")]).peers ∧
    (∀ (d : Communication) (now : Int) (msg : Message),
      msg.sender ≠ d.nodeId →
      alGet (d.handleMessage now msg).peers msg.sender
        = some ⟨now, PeerStatus.online⟩)) :=
  ⟨by decide,
   c5_heartbeat_aging "n1" { heartbeatInterval := some 100 }
     [((0 : Int), CommEvent.register "p")] 350 (by decide)⟩

/-- C6: under the round-robin strategy, each placement selects the node
at index `cursor mod (current eligible-node count)` among the nodes
currently passing `canAcceptTask()` and advances the cursor by one; and
in the concrete scenario (nodes A then B registered, both eligible,
task1 then task2 submitted) task1 lands on A and task2 on B with an
empty queue. -/
theorem c6_round_robin_placement (h : Heap) (s : TaskScheduler)
    (task : Task) (rnd : Nat)
    (hstrat : s.config.strategy = SchedulingStrategy.roundRobin)
    (hne : s.availableNodes ≠ []) :
    ((s.selectNode h task rnd).1
        = (s.availableNodes.get? (s.nextNodeIndex % s.availableNodes.length)).map
            (fun p => p.1) ∧
     (s.selectNode h task rnd).2.nextNodeIndex = s.nextNodeIndex + 1) ∧
    ((alGet rrSched2.nodes "A").map (fun n => alKeys n.tasks)
        = some ["task1"] ∧
     (alGet rrSched2.nodes "B").map (fun n => alKeys n.tasks)
        = some ["task2"] ∧
     rrSched2.taskQueue = []) := by
  constructor
  · simp only [TaskScheduler.selectNode, hstrat]
    rw [if_neg (by simpa [List.isEmpty_iff] using hne)]
    exact ⟨rfl, rfl⟩
  · refine ⟨?_, ?_, ?_⟩ <;> decide

/-- C6 witnessed on the scenario scheduler itself: with `rrSched0`
(cursor 0, nodes A and B both eligible) the selection law and the
concrete scenario hold. -/
theorem c6_round_robin_placement_witness :
    rrSched0.config.strategy = SchedulingStrategy.roundRobin ∧
    rrSched0.availableNodes ≠ [] ∧
    (((rrSched0.selectNode demoHeap task1 0).1
        = (rrSched0.availableNodes.get? (rrSched0.nextNodeIndex % rrSched0.availableNodes.length)).map
            (fun p => p.1) ∧
      (rrSched0.selectNode demoHeap task1 0).2.nextNodeIndex
        = rrSched0.nextNodeIndex + 1) ∧
     ((alGet rrSched2.nodes "A").map (fun n => alKeys n.tasks)
        = some ["task1"] ∧
      (alGet rrSched2.nodes "B").map (fun n => alKeys n.tasks)
        = some ["task2"] ∧
      rrSched2.taskQueue = [])) :=
  ⟨by decide, by decide,
   c6_round_robin_placement demoHeap rrSched0 task1 0 (by decide) (by decide)⟩

/-- C7 (counterexample): `getInfo()` copies the info object shallowly, so
the returned snapshot's `capabilities` field is the node's own array.
Pushing `"x"` through the snapshot's array reference makes the node
itself report `hasCapability("x")`, and an internal `addCapability("y")`
becomes visible through the previously returned snapshot — refuting the
claim that the snapshot is independent of the node's internal state. -/
theorem c7_counterexample_shared_capabilities :
    ComputeNode.hasCapability demoHeap nodeA "x" = false ∧
    (nodeA.getInfo).capabilities = nodeA.info.capabilities ∧
    ComputeNode.hasCapability
        (demoHeap.push (nodeA.getInfo).capabilities "x") nodeA "x" = true ∧
    ((nodeA.addCapability demoHeap "y").get
        (nodeA.getInfo).capabilities).contains "y" = true := by
  decide

/-- C7 (amended): `getInfo()` is a shallow copy — the scalar fields are
value-copied (the snapshot records the status at call time, and a status
change is only seen through a fresh snapshot), but the `capabilities`
field of the snapshot is the very same array reference as the node's, so
an array mutation performed through the snapshot is observable on the
node. -/
theorem c7_amended_shallow_copy (n : ComputeNode) (st : NodeStatus)
    (h : Heap) (cap : String)
    (hr : (n.getInfo).capabilities < h.arrays.length) :
    (n.getInfo).status = n.info.status ∧
    ((n.setStatus st).getInfo).status = st ∧
    (n.getInfo).capabilities = n.info.capabilities ∧
    ComputeNode.hasCapability (h.push (n.getInfo).capabilities cap) n cap
      = true := by
  refine ⟨rfl, rfl, rfl, ?_⟩
  have hget : (h.push n.info.capabilities cap).get n.info.capabilities
      = h.get n.info.capabilities ++ [cap] :=
    heapGet_set_self h.arrays n.info.capabilities _ hr
  show ((h.push n.info.capabilities cap).get n.info.capabilities).contains cap
      = true
  rw [hget]
  simp

/-- C7 amended, witnessed on the concrete node `A` and heap. -/
theorem c7_amended_shallow_copy_witness :
    (nodeA.getInfo).capabilities < demoHeap.arrays.length ∧
    ((nodeA.getInfo).status = nodeA.info.status ∧
     ((nodeA.setStatus NodeStatus.busy).getInfo).status = NodeStatus.busy ∧
     (nodeA.getInfo).capabilities = nodeA.info.capabilities ∧
     ComputeNode.hasCapability
        (demoHeap.push (nodeA.getInfo).capabilities "x") nodeA "x" = true) :=
  ⟨by decide,
   c7_amended_shallow_copy nodeA NodeStatus.busy demoHeap "x" (by decide)⟩

/-- C8 (counterexample): `start()` installs a fresh interval timer
unconditionally, so a second `start()` yields a different state than one
(two live timers instead of one), and after `start(); start(); stop()`
the first timer — whose handle was overwritten — is still live: `stop()`
does not leave the instance timer-free. -/
theorem c8_counterexample_start_not_idempotent :
    comm0.start.start ≠ comm0.start ∧
    (comm0.start.start.stop).liveTimers = [0] ∧
    (comm0.start.stop).liveTimers = [] := by
  refine ⟨?_, ?_, ?_⟩ <;> decide

/-- C8 (amended): `stop()` is idempotent and a single `start()` paired
with `stop()` leaves the live-timer set unchanged and the stored handle
empty; but `start()` is not idempotent — each call creates a new interval
and overwrites the stored handle, so after `start(); start(); stop()` the
first interval is still live while no handle to it remains. -/
theorem c8_amended_stop_idempotent_start_leaks (c : Communication)
    (hwf : TimersWF c) :
    c.stop.stop = c.stop ∧
    (∀ x, x ∈ (c.start.stop).liveTimers ↔ x ∈ c.liveTimers) ∧
    (c.start.stop).heartbeatTimer = none ∧
    c.timersCreated ∈ (c.start.start.stop).liveTimers ∧
    (c.start.start.stop).heartbeatTimer = none := by
  have hstopnone : ∀ d : Communication, d.stop.heartbeatTimer = none := by
    intro d
    cases hd : d.heartbeatTimer <;> simp [Communication.stop, hd]
  have hstopfix : ∀ d : Communication, d.heartbeatTimer = none → d.stop = d := by
    intro d hd
    simp [Communication.stop, hd]
  refine ⟨hstopfix _ (hstopnone c), ?_, hstopnone _, ?_, hstopnone _⟩
  · intro x
    rw [mem_liveTimers, mem_liveTimers]
    show (x < c.timersCreated + 1 ∧
        x ∉ c.timersCleared ++ [c.timersCreated]) ↔ _
    simp only [List.mem_append, List.mem_singleton, not_or]
    constructor
    · rintro ⟨hlt, hmem, hne⟩
      exact ⟨by omega, hmem⟩
    · rintro ⟨hlt, hmem⟩
      exact ⟨by omega, hmem, by omega⟩
  · rw [mem_liveTimers]
    show c.timersCreated < c.timersCreated + 1 + 1 ∧
        c.timersCreated ∉ c.timersCleared ++ [c.timersCreated + 1]
    simp only [List.mem_append, List.mem_singleton, not_or]
    refine ⟨by omega, ?_, by omega⟩
    intro hmem
    exact absurd (hwf _ hmem) (by omega)

/-- C8 amended, witnessed on a fresh communication instance. -/
theorem c8_amended_witness :
    TimersWF comm0 ∧
    (comm0.stop.stop = comm0.stop ∧
     (∀ x, x ∈ (comm0.start.stop).liveTimers ↔ x ∈ comm0.liveTimers) ∧
     (comm0.start.stop).heartbeatTimer = none ∧
     comm0.timersCreated ∈ (comm0.start.start.stop).liveTimers ∧
     (comm0.start.start.stop).heartbeatTimer = none) :=
  ⟨by intro x hx; simp [comm0, Communication.construct] at hx,
   c8_amended_stop_idempotent_start_leaks comm0
     (by intro x hx; simp [comm0, Communication.construct] at hx)⟩

/-- C9: a numeric config field supplied as `0` is falsy under the `||`
defaulting in the constructors, so it is replaced by the documented
default: `maxRetries 0` becomes 3, `timeout 0` becomes 30000, and
`heartbeatInterval 0` becomes 5000 — whatever the other fields are. -/
theorem c9_zero_config_gets_default (st : Option SchedulingStrategy)
    (mr tout mt xr : Option Int) (nodeId : String) :
    (TaskScheduler.construct
        { strategy := st, maxRetries := some 0, timeout := tout }).config.maxRetries
      = 3 ∧
    (TaskScheduler.construct
        { strategy := st, maxRetries := mr, timeout := some 0 }).config.timeout
      = 30000 ∧
    (Communication.construct nodeId
        { heartbeatInterval := some 0, messageTimeout := mt,
          maxRetries := xr }).config.heartbeatInterval
      = 5000 := by
  refine ⟨?_, ?_, ?_⟩ <;>
    simp [TaskScheduler.construct, Communication.construct, orDefaultNum]

/-- C10: every node's concurrency ceiling is the hard-coded 4 (the
constructor and `createComputeNode` take no ceiling argument), so under
any sequence of public operations the active task count stays at most 4
and the load only takes the values 0, 1/4, 1/2, 3/4 or 1. -/
theorem c10_ceiling_hardcoded_four (id address : String) (port : Int)
    (capsRef : Nat) (h : Heap) (ops : List NodeOp) :
    (createComputeNode id address port capsRef).maxConcurrentTasks = 4 ∧
    (runNodeOps (h, ComputeNode.construct id address port capsRef) ops).2.maxConcurrentTasks = 4 ∧
    (runNodeOps (h, ComputeNode.construct id address port capsRef) ops).2.tasks.length ≤ 4 ∧
    ((runNodeOps (h, ComputeNode.construct id address port capsRef) ops).2.info.load = 0 ∨
     (runNodeOps (h, ComputeNode.construct id address port capsRef) ops).2.info.load = 1/4 ∨
     (runNodeOps (h, ComputeNode.construct id address port capsRef) ops).2.info.load = 1/2 ∨
     (runNodeOps (h, ComputeNode.construct id address port capsRef) ops).2.info.load = 3/4 ∨
     (runNodeOps (h, ComputeNode.construct id address port capsRef) ops).2.info.load = 1) := by
  obtain ⟨h4, hle, hload⟩ :=
    nodeInv_runNodeOps (h, ComputeNode.construct id address port capsRef) ops
      (nodeInv_construct id address port capsRef)
  refine ⟨rfl, h4, hle, ?_⟩
  rw [hload]
  revert hle
  generalize (runNodeOps (h, ComputeNode.construct id address port capsRef) ops).2.tasks.length = L
  intro hle
  interval_cases L <;> norm_num

end DistCore
